import Mathlib

/-!
# Verification of the GAMS external-equation interface

A shallow embedding, in Lean 4, of the two C/C++ translation units of the
GAMS external-equation interface:

* `geheader.h` — the control-vector protocol: `GEwrite` (the message packer
  behind `GEstat`/`GElog`) and `GEname` (the string extractor), together with
  the field-offset constants of the control vector `Icntr`;
* `mylib.cpp` — the example external module `gefunc` (the evaluation
  dispatcher: Init / Terminate / Evaluate / ConstantDerivative modes).

Modelling conventions:

* The control vector `icntr` is a `List Int` of machine words; reads use
  `List.getD` with default `0`, and every store is bounds-checked, so the
  embedded functions return `Option` results — `none` models an
  out-of-bounds store, which is undefined behavior in C.
* C `double` values are modelled as exact rationals `ℚ`; the library
  functions `std::sin` / `std::cos` are abstracted as parameters
  `sinF cosF : ℚ → ℚ` (no verified property depends on their values).
* The process-wide debug file `debugext.txt` (the only global mutable state)
  is modelled as an explicit append-only list of `(mode, line)` pairs,
  threaded through the calls.
* Strings are byte lists (`List Nat`); the diagnostic messages of
  `mylib.cpp` are pure ASCII, so their UTF-8 bytes are their code points.
-/

/-! ## Control-vector layout (geheader.h) -/

def wordSize : Nat := 4

/-- `#define INTS(x) ((((x)-1) / (int)sizeof(int)) + 1)`.
In C the division truncates toward zero, so `INTS 0 = ((-1)/4)+1 = 1`;
with Lean's truncated `Nat` subtraction `0 - 1 = 0` the formula below
gives the same value `1` at `0`, and agrees with C everywhere else. -/
def INTS (x : Nat) : Nat := (x - 1) / wordSize + 1

/-- `ceil (a / b)` on naturals; used to state the spec's `ceil(length/wordSize)`. -/
def ceilDiv (a b : Nat) : Nat := (a + b - 1) / b

def I_Length : Nat := 0
def I_Neq : Nat := 1
def I_Nvar : Nat := 2
def I_Nz : Nat := 3
def I_Mode : Nat := 4
def I_Eqno : Nat := 5
def I_Dofunc : Nat := 6
def I_Dodrv : Nat := 7
def I_Newpt : Nat := 8
def I_ConstDeriv : Nat := 13
def I_BufStrt : Nat := 25
def I_BufLen : Nat := 26
def I_Debug : Nat := 27

def TOSTAT : Int := 1
def TOLOG : Int := 2

def DOINIT : Int := 1
def DOTERM : Int := 2
def DOEVAL : Int := 3
def DOCONSTDERIV : Int := 4

/-- Field read `icntr[i]` (in-bounds under the protocol; modelled total). -/
def fld (icntr : List Int) (i : Nat) : Int := icntr.getD i 0

/-! ## The message packer `GEwrite` -/

/-- Byte `t` (little-endian) of the 32-bit two's-complement value `w`. -/
def byteAt (w : Int) (t : Nat) : Nat := ((w % (2 : Int) ^ 32).toNat / 256 ^ t) % 256

/-- Reinterpret a 32-bit unsigned value as a signed C `int`. -/
def ofUInt32 (n : Nat) : Int := if n < 2 ^ 31 then (n : Int) else (n : Int) - 2 ^ 32

/-- The value of payload word `j` after `memcpy((char *)(icntr+startMsg), line, nBytes)`:
bytes below `nBytes` come from the line, the remaining bytes of a partial
final word keep the old word's bytes. -/
def payloadWord (old : Int) (line : List Nat) (nBytes j : Nat) : Int :=
  let b : Nat → Nat := fun t =>
    if wordSize * j + t < nBytes then line.getD (wordSize * j + t) 0 % 256 else byteAt old t
  ofUInt32 (b 0 + 256 * b 1 + 256 ^ 2 * b 2 + 256 ^ 3 * b 3)

/-- The `memcpy` of `GEwrite`: write `nBytes` bytes of `line` into the words
`s, s+1, …` of the vector.  A word is touched iff some copied byte lands in
it, i.e. for the `⌈nBytes/4⌉` first words. -/
def writePayload (v : List Int) (s : Nat) (line : List Nat) (nBytes : Nat) : List Int :=
  (List.range ((nBytes + (wordSize - 1)) / wordSize)).foldl
    (fun acc j => acc.set (s + j) (payloadWord (acc.getD (s + j) 0) line nBytes j)) v

/-- Shallow embedding of `GEwrite` from `geheader.h` (buffer logic only — the
debug-file branch does pure file I/O and is modelled in `GEwriteD`).

```c
startMsg   = icntr[I_BufStrt] + icntr[I_BufLen] + 1;
ints2write = icntr[I_Length] - startMsg;
if (ints2write <= 0) return;
nBytes = strlen(line);
if (nBytes > 256) nBytes = 256;
if (INTS(nBytes) > ints2write) nBytes = ints2write*sizeof(int);
memcpy((char *)(icntr+startMsg), line, nBytes);
icntr[startMsg-2] = nBytes;
icntr[startMsg-1] = mode;
icntr[I_BufLen] += 2 + INTS(nBytes);
```

Every store is bounds-checked against the actual list; `none` models an
out-of-bounds store (undefined behavior in C).  The byte count actually
stored is `nBytesVal`, the value of the C variable `nBytes` after its two
clamping lines:

```c
nBytes = strlen(line);
if (nBytes > 256) nBytes = 256;
if (INTS(nBytes) > ints2write) nBytes = ints2write*sizeof(int);
```
-/
def nBytesVal (icntr : List Int) (line : List Nat) : Nat :=
  let ints2write : Int :=
    fld icntr I_Length - (fld icntr I_BufStrt + fld icntr I_BufLen + 1)
  if (INTS (min line.length 256) : Int) > ints2write then ints2write.toNat * wordSize
  else min line.length 256

def GEwrite (icntr : List Int) (line : List Nat) (mode : Int) : Option (List Int) :=
  let startMsg : Int := fld icntr I_BufStrt + fld icntr I_BufLen + 1
  let ints2write : Int := fld icntr I_Length - startMsg
  if ints2write ≤ 0 then some icntr
  else
    let nBytes : Nat := nBytesVal icntr line
    let nW : Nat := (nBytes + (wordSize - 1)) / wordSize
    if 2 ≤ startMsg ∧ startMsg + (nW : Int) ≤ (icntr.length : Int) ∧ I_BufLen < icntr.length
    then
      let s : Nat := startMsg.toNat
      let v1 := writePayload icntr s line nBytes
      let v2 := (v1.set (s - 2) (nBytes : Int)).set (s - 1) mode
      some (v2.set I_BufLen (fld v2 I_BufLen + 2 + (INTS nBytes : Int)))
    else none

/-- A well-formed control vector: the length field is the vector's actual word
count, the buffer region starts after the fixed header (`I_Debug` is the last
fixed field, at C index 27, so the Fortran-based `I_BufStrt` is at least 29),
and the consumed counter is nonnegative. -/
def ValidCntr (icntr : List Int) : Prop :=
  fld icntr I_Length = (icntr.length : Int) ∧ 29 ≤ fld icntr I_BufStrt ∧
    0 ≤ fld icntr I_BufLen ∧ 28 ≤ icntr.length

instance (icntr : List Int) : Decidable (ValidCntr icntr) := by
  unfold ValidCntr; infer_instance

/-! ## The string extractor `GEname` -/

/-- `strncpy(buf, src, n)` at byte granularity, copying into positions
`i, i+1, …` of `buf`: at most `n` bytes are copied; once a `0` byte of the
source has been copied, the remaining positions up to `n` are padded with
zeros.  `k` counts the bytes still to process. -/
def strncpyGo (buf : List Nat) (src : Nat → Nat) (i : Nat) : Nat → Bool → List Nat
  | 0, _ => buf
  | k + 1, pad =>
    let c : Nat := if pad then 0 else src i
    strncpyGo (buf.set i c) src (i + 1) k (pad || decide (src i = 0))

/-- `strncpy(buf, src, n)` writing from position `0`. -/
def strncpyL (buf : List Nat) (src : Nat → Nat) (n : Nat) : List Nat :=
  strncpyGo buf src 0 n false

/-- Shallow embedding of `GEname` from `geheader.h`.

```c
nChars = icntr[11];
if (nChars < 0) return -1;
if (nChars > bufLen) nChars = bufLen;
from = (char *) (icntr + icntr[10] - 1);
strncpy (buf, from, nChars);
if (nChars < bufLen) buf[nChars] = '\x30';
return nChars;
```
(the terminator written is the null byte `0`; the digit above only avoids an
escape in this comment).  `nChars0` is the declared count `icntr[11]`, `src`
is the byte view of the host-deposited string at `(char *)(icntr+icntr[10]-1)`,
and `buf` is the caller's output buffer whose capacity `bufLen` is its
length. -/
def GEname (nChars0 : Int) (src : Nat → Nat) (buf : List Nat) : Int × List Nat :=
  if nChars0 < 0 then (-1, buf)
  else
    let nChars : Nat :=
      if nChars0 > (buf.length : Int) then buf.length else nChars0.toNat
    let buf1 := strncpyL buf src nChars
    if (nChars : Int) < (buf.length : Int) then ((nChars : Int), buf1.set nChars 0)
    else ((nChars : Int), buf1)

/-! ## The example module `gefunc` (mylib.cpp) -/

/-- `GEwrite` together with its debug side effect: if `icntr[I_Debug]` is
nonzero the line and its destination are appended to the process-wide debug
sink (the `debugext.txt` trace, modelled as a list). -/
def GEwriteD (icntr : List Int) (line : List Nat) (mode : Int)
    (dbg : List (Int × List Nat)) : Option (List Int × List (Int × List Nat)) :=
  let dbg' := if fld icntr I_Debug ≠ 0 then dbg ++ [(mode, line)] else dbg
  (GEwrite icntr line mode).map fun v => (v, dbg')

/-- `GEstat(icntr, line)` = `GEwrite(icntr, line, TOSTAT)`. -/
def GEstat (icntr : List Int) (line : List Nat) (dbg : List (Int × List Nat)) :
    Option (List Int × List (Int × List Nat)) :=
  GEwriteD icntr line TOSTAT dbg

/-- `GElog(icntr, line)` = `GEwrite(icntr, line, TOLOG)`. -/
def GElog (icntr : List Int) (line : List Nat) (dbg : List (Int × List Nat)) :
    Option (List Int × List (Int × List Nat)) :=
  GEwriteD icntr line TOLOG dbg

/-- Bytes of an ASCII string literal (for ASCII, UTF-8 bytes = code points). -/
def strBytes (s : String) : List Nat := s.data.map Char.toNat

def msgNeq : List Nat := strBytes "--- Number of equations do not match"
def msgNvar : List Nat := strBytes "--- Number of variables do not match"
def msgNz : List Nat := strBytes "--- Number of differentibles do not match"
def msgSizeOk : List Nat := strBytes "--- Model has the correct size."
def msgTerm : List Nat := strBytes "--- Terminating"
def msgEvalMode : List Nat := strBytes "--- Evaluation mode"
def msgBadIndex : List Nat := strBytes " ** fIndex has unexpected value."
def msgCDeriv : List Nat := strBytes "--- Constant derivative call"
def msgBadMode : List Nat := strBytes " ** Mode not defined."

/-- The outcome of one `gefunc` call: return status, the control vector, the
function-value output `*f`, the derivative output array `d`, and the debug
sink. -/
structure CallResult where
  rc : Int
  icntr : List Int
  fval : ℚ
  d : List ℚ
  dbg : List (Int × List Nat)
deriving DecidableEq

/-- Bounds-checked store `d[i] = val` for the derivative array (`none` models
an out-of-bounds store). -/
def setQ (d : List ℚ) (i : Int) (val : ℚ) : Option (List ℚ) :=
  if 0 ≤ i ∧ i.toNat < d.length then some (d.set i.toNat val) else none

/-- Shallow embedding of `gefunc` from `mylib.cpp`.  The module expects
`neq = 2`, `nvar = 4`, `nz = 4`; equation 1 is `sin(x0) - x2`, equation 2 is
`cos(x1) - x3`.  `sinF`/`cosF` abstract `std::sin`/`std::cos`; `x` is the
variable-value array, `f` the incoming function value, `d` the incoming
derivative array, `dbg` the incoming debug-sink state. -/
def gefunc (sinF cosF : ℚ → ℚ) (icntr : List Int) (x : List ℚ) (f : ℚ) (d : List ℚ)
    (dbg : List (Int × List Nat)) : Option CallResult :=
  if fld icntr I_Mode = DOINIT then
    if fld icntr I_Neq ≠ 2 then
      (GElog icntr msgNeq dbg).map fun p => ⟨2, p.1, f, d, p.2⟩
    else if fld icntr I_Nvar ≠ 4 then
      (GElog icntr msgNvar dbg).map fun p => ⟨2, p.1, f, d, p.2⟩
    else if fld icntr I_Nz ≠ 4 then
      (GElog icntr msgNz dbg).map fun p => ⟨2, p.1, f, d, p.2⟩
    else
      (GElog icntr msgSizeOk dbg).bind fun p =>
        if I_ConstDeriv < p.1.length then
          some ⟨0, p.1.set I_ConstDeriv 1, f, d, p.2⟩
        else none
  else if fld icntr I_Mode = DOTERM then
    (GElog icntr msgTerm dbg).map fun p => ⟨0, p.1, f, d, p.2⟩
  else if fld icntr I_Mode = DOEVAL then
    (GElog icntr msgEvalMode dbg).bind fun p =>
      let findex := fld icntr I_Eqno
      let dofnc := fld icntr I_Dofunc
      let dodrv := fld icntr I_Dodrv
      if 1 ≤ findex ∧ findex ≤ 2 then
        let f1 := if dofnc ≠ 0 then
            (if findex = 1 then sinF (x.getD 0 0) - x.getD 2 0
             else cosF (x.getD 1 0) - x.getD 3 0)
          else f
        if dodrv ≠ 0 then
          if findex = 1 then
            (setQ d 0 (cosF (x.getD 0 0))).bind fun d1 =>
              (setQ d1 2 (-1)).map fun d2 => ⟨0, p.1, f1, d2, p.2⟩
          else
            (setQ d 1 (-(sinF (x.getD 1 0)))).bind fun d1 =>
              (setQ d1 3 (-1)).map fun d2 => ⟨0, p.1, f1, d2, p.2⟩
        else
          some ⟨0, p.1, f1, d, p.2⟩
      else
        (GEstat p.1 msgBadIndex p.2).map fun q => ⟨2, q.1, f, d, q.2⟩
  else if fld icntr I_Mode = DOCONSTDERIV then
    (GElog icntr msgCDeriv dbg).bind fun p =>
      (setQ d (fld icntr I_Eqno + 1) (-1)).map fun d1 => ⟨0, p.1, f, d1, p.2⟩
  else
    (GElog icntr msgBadMode dbg).bind fun p =>
      (GEstat p.1 msgBadMode p.2).map fun q => ⟨2, q.1, f, d, q.2⟩

/-! ## Helper lemmas about `writePayload` and list stores -/

theorem foldl_set_length (s : Nat) (g : List Int → Nat → Int) (js : List Nat) :
    ∀ v : List Int,
      (js.foldl (fun acc j => acc.set (s + j) (g acc j)) v).length = v.length := by
  induction js with
  | nil => intro v; rfl
  | cons j js ih => intro v; simpa using ih (v.set (s + j) (g v j))

theorem foldl_set_getD_ne (s : Nat) (g : List Int → Nat → Int) (i : Nat) (js : List Nat) :
    ∀ v : List Int, (∀ j ∈ js, s + j ≠ i) →
      (js.foldl (fun acc j => acc.set (s + j) (g acc j)) v).getD i 0 = v.getD i 0 := by
  induction js with
  | nil => intro v _; rfl
  | cons j js ih =>
    intro v h
    have h1 : s + j ≠ i := h j (by simp)
    rw [List.foldl_cons, ih (v.set (s + j) (g v j)) (fun j' hj' => h j' (by simp [hj']))]
    simp [List.getD, List.getElem?_set_ne h1]

theorem writePayload_length (v : List Int) (s : Nat) (line : List Nat) (n : Nat) :
    (writePayload v s line n).length = v.length :=
  foldl_set_length s _ _ v

theorem writePayload_getD (v : List Int) (s : Nat) (line : List Nat) (n i : Nat)
    (h : i < s ∨ s + (n + (wordSize - 1)) / wordSize ≤ i) :
    (writePayload v s line n).getD i 0 = v.getD i 0 := by
  apply foldl_set_getD_ne
  intro j hj
  have hj' := List.mem_range.mp hj
  omega

theorem getD_set_self (v : List Int) (i : Nat) (a : Int) (h : i < v.length) :
    (v.set i a).getD i 0 = a := by
  simp [List.getD, List.getElem?_set_self, h]

theorem getD_set_ne (v : List Int) (i j : Nat) (a : Int) (h : i ≠ j) :
    (v.set i a).getD j 0 = v.getD j 0 := by
  simp [List.getD, List.getElem?_set_ne h]

/-! ## Core characterization of a successful `GEwrite` -/

/-- Under a well-formed control vector with positive remaining capacity
(`ints2write > 0` in the source), `GEwrite` succeeds: it stores the byte
count `nBytesVal` in the first header word at C index
`bufStrt + bufLen - 1`, the destination `mode` in the second header word,
advances `icntr[I_BufLen]` by `2 + INTS nBytes`, and leaves every word
strictly below the header (other than `I_BufLen`) unchanged. -/
theorem GEwrite_write (icntr : List Int) (line : List Nat) (mode : Int)
    (hV : ValidCntr icntr)
    (hw : 0 < fld icntr I_Length - (fld icntr I_BufStrt + fld icntr I_BufLen + 1)) :
    ∃ v', GEwrite icntr line mode = some v' ∧
      v'.length = icntr.length ∧
      v'.getD ((fld icntr I_BufStrt + fld icntr I_BufLen).toNat - 1) 0
        = (nBytesVal icntr line : Int) ∧
      v'.getD ((fld icntr I_BufStrt + fld icntr I_BufLen).toNat) 0 = mode ∧
      v'.getD I_BufLen 0
        = fld icntr I_BufLen + 2 + (INTS (nBytesVal icntr line) : Int) ∧
      (∀ i : Nat, i ≠ I_BufLen →
        i < (fld icntr I_BufStrt + fld icntr I_BufLen).toNat - 1 →
        v'.getD i 0 = icntr.getD i 0) := by
  obtain ⟨hL, hBS, hBC, hlen⟩ := hV
  have hws : wordSize = 4 := rfl
  -- abbreviations
  set B := fld icntr I_BufStrt with hB
  set C := fld icntr I_BufLen with hC
  set L := fld icntr I_Length with hLd
  set nB : Nat := nBytesVal icntr line with hnB
  set nW : Nat := (nB + (wordSize - 1)) / wordSize with hnWd
  -- the payload fits in the remaining words
  have hnW : (nW : Int) ≤ L - (B + C + 1) := by
    have hnBeq : nB = if (INTS (min line.length 256) : Int) > L - (B + C + 1) then
        (L - (B + C + 1)).toNat * wordSize else min line.length 256 := by
      rw [hnB, nBytesVal]
    rw [hnWd, hnBeq]
    split
    · rename_i h
      simp only [hws]
      omega
    · rename_i h
      push_neg at h
      simp only [INTS, hws] at h
      simp only [hws]
      omega
  have hcond : 2 ≤ B + C + 1 ∧ B + C + 1 + (nW : Int) ≤ (icntr.length : Int) ∧
      I_BufLen < icntr.length := by
    refine ⟨by omega, by omega, ?_⟩
    simp only [I_BufLen]
    omega
  -- reduce GEwrite to its success branch
  have hge : GEwrite icntr line mode =
      some (((writePayload icntr (B + C + 1).toNat line nB).set ((B + C + 1).toNat - 2)
          (nB : Int) |>.set ((B + C + 1).toNat - 1) mode).set I_BufLen
        (fld ((writePayload icntr (B + C + 1).toNat line nB).set ((B + C + 1).toNat - 2)
          (nB : Int) |>.set ((B + C + 1).toNat - 1) mode) I_BufLen + 2 + (INTS nB : Int))) := by
    simp only [GEwrite, ← hB, ← hC, ← hLd, ← hnB, ← hnWd]
    rw [if_neg (by omega), if_pos hcond]
  set s : Nat := (B + C + 1).toNat with hsdef
  have hs : (s : Int) = B + C + 1 := by omega
  have hslen : s ≤ icntr.length - 1 := by omega
  have hs30 : 30 ≤ s := by omega
  -- layer 1: payload
  set v1 := writePayload icntr s line nB with hv1
  have hv1len : v1.length = icntr.length := writePayload_length ..
  have hv1lt : ∀ i : Nat, i < s → v1.getD i 0 = icntr.getD i 0 := by
    intro i hi
    exact writePayload_getD icntr s line nB i (Or.inl hi)
  -- layer 2: the two header words
  set v2 := (v1.set (s - 2) (nB : Int)).set (s - 1) mode with hv2
  have hv2len : v2.length = icntr.length := by simp [hv2, hv1len]
  have hv2h1 : v2.getD (s - 2) 0 = (nB : Int) := by
    rw [hv2, getD_set_ne _ _ _ _ (by omega), getD_set_self]
    omega
  have hv2h2 : v2.getD (s - 1) 0 = mode := by
    rw [hv2, getD_set_self]
    simp only [List.length_set, hv1len]
    omega
  have hv2_26 : v2.getD I_BufLen 0 = icntr.getD I_BufLen 0 := by
    rw [hv2, getD_set_ne _ _ _ _ (by simp only [I_BufLen]; omega),
      getD_set_ne _ _ _ _ (by simp only [I_BufLen]; omega)]
    exact hv1lt _ (by simp only [I_BufLen]; omega)
  have hv2lt : ∀ i : Nat, i ≠ I_BufLen → i < s - 2 → v2.getD i 0 = icntr.getD i 0 := by
    intro i hne hi
    rw [hv2, getD_set_ne _ _ _ _ (by omega), getD_set_ne _ _ _ _ (by omega)]
    exact hv1lt _ (by omega)
  -- layer 3: the consumed counter
  refine ⟨_, hge, ?_, ?_, ?_, ?_, ?_⟩
  · simp [hv2len]
  · have he : (B + C).toNat - 1 = s - 2 := by omega
    rw [he, getD_set_ne _ _ _ _ (by simp only [I_BufLen]; omega), hv2h1]
  · have he : (B + C).toNat = s - 1 := by omega
    rw [he, getD_set_ne _ _ _ _ (by simp only [I_BufLen]; omega), hv2h2]
  · rw [getD_set_self _ _ _ (by simp only [hv2len, I_BufLen]; omega), fld, hv2_26]
    rfl
  · intro i hne hi
    have he : (B + C).toNat - 1 = s - 2 := by omega
    rw [he] at hi
    rw [getD_set_ne _ _ _ _ (Ne.symm hne), hv2lt i hne hi]

/-- For a positive byte count, the C macro `INTS` is exactly `ceil(n / wordSize)`. -/
theorem INTS_eq_ceilDiv (n : Nat) (h : 1 ≤ n) : INTS n = ceilDiv n wordSize := by
  simp only [INTS, ceilDiv, wordSize]
  omega

/-- When `ints2write ≤ 0`, `GEwrite` returns before any store: the vector is
returned unchanged (helper form shared by several developments below). -/
theorem GEwrite_noop (icntr : List Int) (line : List Nat) (mode : Int)
    (h : fld icntr I_Length - (fld icntr I_BufStrt + fld icntr I_BufLen + 1) ≤ 0) :
    GEwrite icntr line mode = some icntr := by
  simp only [GEwrite]
  rw [if_pos h]

/-! ## Claim C2: behavior when the buffer is exhausted -/

/-- C2 (amended): when the remaining capacity
`totalLength - (bufferStart + bufferConsumed + 1)` (the `ints2write` of the
source) is `≤ 0`, `GEwrite` returns without signaling an error and leaves the
control vector entirely unchanged, so a later call with more capacity behaves
exactly as a first call.  (The claim's original threshold
`totalLength - (bufferStart + bufferConsumed + 2) ≤ 0` is off by one, see
`GEwrite_offbyone_counterexample`.) -/
theorem GEwrite_noop_when_full (icntr : List Int) (line : List Nat) (mode : Int)
    (h : fld icntr I_Length - (fld icntr I_BufStrt + fld icntr I_BufLen + 1) ≤ 0) :
    GEwrite icntr line mode = some icntr :=
  GEwrite_noop icntr line mode h

/-- A 32-word control vector whose buffer starts at Fortran position 30 with
nothing consumed: exactly one free word remains past the two header words. -/
def cntr32 : List Int :=
  (((List.replicate 32 0).set I_Length 32).set I_BufStrt 30).set I_BufLen 0

/-- Counterexample to C2 as stated: for `cntr32`,
`totalLength - (bufferStart + bufferConsumed + 2) = 0 ≤ 0`, yet `GEwrite` with
a one-byte line is *not* a no-op — it stores a header (length word `1` at C
index 29) and advances the consumed counter to `3`. -/
theorem GEwrite_offbyone_counterexample :
    fld cntr32 I_Length - (fld cntr32 I_BufStrt + fld cntr32 I_BufLen + 2) ≤ 0 ∧
      (GEwrite cntr32 [120] TOSTAT).map (fun v => (v.getD I_BufLen 0, v.getD 29 0))
        = some (3, 1) ∧ (3 : Int) ≠ 0 := by
  refine ⟨by decide, by decide, by decide⟩

/-- Witness for `GEwrite_noop_when_full`: a 31-word vector with buffer start
30 has `ints2write = 0`, and the call returns the vector unchanged. -/
def cntr31 : List Int :=
  (((List.replicate 31 0).set I_Length 31).set I_BufStrt 30).set I_BufLen 0

theorem GEwrite_noop_when_full_witness :
    fld cntr31 I_Length - (fld cntr31 I_BufStrt + fld cntr31 I_BufLen + 1) ≤ 0 ∧
      GEwrite cntr31 [120] TOSTAT = some cntr31 :=
  ⟨by decide, GEwrite_noop_when_full cntr31 [120] TOSTAT (by decide)⟩

/-! ## Claim C1: exact store of a fitting line -/

/-- C1 (amended): for every text line of byte length between 1 and 256 and
every well-formed control vector whose remaining capacity is sufficient in
the claim's sense (`ceil(length/wordSize) ≤ totalLength - (bufferStart +
bufferConsumed + 2)`), `GEwrite` stores a record whose header length word
(at C index `bufferStart + bufferConsumed - 1`) equals the input length
exactly, and advances the consumed counter by exactly
`2 + ceil(length/wordSize)` words.  (The original claim also admitted
length 0, where the counter advances by 3, not 2: see
`GEwrite_empty_line_counterexample`.) -/
theorem GEwrite_header_and_advance (icntr : List Int) (line : List Nat) (mode : Int)
    (hV : ValidCntr icntr) (h1 : 1 ≤ line.length) (h2 : line.length ≤ 256)
    (hcap : (ceilDiv line.length wordSize : Int)
      ≤ fld icntr I_Length - (fld icntr I_BufStrt + fld icntr I_BufLen + 2)) :
    ∃ v', GEwrite icntr line mode = some v' ∧
      v'.getD ((fld icntr I_BufStrt + fld icntr I_BufLen).toNat - 1) 0
        = (line.length : Int) ∧
      v'.getD I_BufLen 0
        = fld icntr I_BufLen + 2 + (ceilDiv line.length wordSize : Int) := by
  have hcd : 1 ≤ ceilDiv line.length wordSize := by
    simp only [ceilDiv, wordSize]
    omega
  have hw : 0 < fld icntr I_Length - (fld icntr I_BufStrt + fld icntr I_BufLen + 1) := by
    omega
  have hmin : min line.length 256 = line.length := by omega
  have hnb : nBytesVal icntr line = line.length := by
    rw [nBytesVal, hmin, INTS_eq_ceilDiv line.length h1, if_neg (by omega)]
  obtain ⟨v', hge, _, hh1, _, hblen, _⟩ := GEwrite_write icntr line mode hV hw
  refine ⟨v', hge, ?_, ?_⟩
  · rw [hh1, hnb]
  · rw [hblen, hnb, INTS_eq_ceilDiv line.length h1]

/-- The scenario vector of the spec: `totalLength = 64`, `bufferStart = 30`,
`bufferConsumed = 0`. -/
def cntr64 : List Int :=
  (((List.replicate 64 0).set I_Length 64).set I_BufStrt 30).set I_BufLen 0

/-- Counterexample to C1 as stated: the empty line (byte length 0, which the
original claim's "length at most 256" admits, with ample capacity) advances
the consumed counter by `3` words, not by `2 + ceil(0/4) = 2`, because the C
macro `INTS` evaluates to `1` at `0`. -/
theorem GEwrite_empty_line_counterexample :
    (ceilDiv 0 wordSize : Int)
        ≤ fld cntr64 I_Length - (fld cntr64 I_BufStrt + fld cntr64 I_BufLen + 2) ∧
      (GEwrite cntr64 [] TOSTAT).map (fun v => v.getD I_BufLen 0) = some 3 ∧
      (3 : Int) ≠ 0 + 2 + (ceilDiv 0 wordSize : Int) := by
  refine ⟨by decide, by decide, by decide⟩

/-- Witness for `GEwrite_header_and_advance`: the spec's own scenario — a
10-byte line appended to `cntr64` stores header length 10 and leaves
`bufferConsumed = 0 + 2 + ceil(10/4) = 5`. -/
theorem GEwrite_header_and_advance_witness :
    ValidCntr cntr64 ∧ 1 ≤ (List.replicate 10 97).length ∧
      (List.replicate 10 97).length ≤ 256 ∧
      (ceilDiv (List.replicate 10 97).length wordSize : Int)
        ≤ fld cntr64 I_Length - (fld cntr64 I_BufStrt + fld cntr64 I_BufLen + 2) ∧
      ∃ v', GEwrite cntr64 (List.replicate 10 97) TOSTAT = some v' ∧
        v'.getD ((fld cntr64 I_BufStrt + fld cntr64 I_BufLen).toNat - 1) 0
          = ((List.replicate 10 97).length : Int) ∧
        v'.getD I_BufLen 0
          = fld cntr64 I_BufLen + 2 + (ceilDiv (List.replicate 10 97).length wordSize : Int) :=
  ⟨by decide, by decide, by decide, by decide,
    GEwrite_header_and_advance cntr64 (List.replicate 10 97) TOSTAT
      (by decide) (by decide) (by decide) (by decide)⟩

/-! ## Claim C3: the stored length under clamping and truncation -/

/-- C3 (amended): for every text line and every well-formed control vector
with positive remaining capacity, where the remaining capacity is the
source's `ints2write = totalLength - (bufferStart + bufferConsumed + 1)`
(the claim's `totalLength - (bufferStart + bufferConsumed + 2)` is off by
one, see `GEwrite_stored_length_counterexample`): the length stored in the
record header equals `min(strlen(line), 256)` when
`ceil(min(strlen(line), 256)/wordSize)` fits in the remaining words, and
otherwise equals `remainingWords * wordSize`; in particular inputs longer
than 256 bytes are stored with length 256 whenever the 64 needed words fit,
and the stored length never exceeds `remainingWords * wordSize`. -/
theorem GEwrite_stored_length (icntr : List Int) (line : List Nat) (mode : Int)
    (hV : ValidCntr icntr)
    (hw : 0 < fld icntr I_Length - (fld icntr I_BufStrt + fld icntr I_BufLen + 1)) :
    ∃ v', GEwrite icntr line mode = some v' ∧
      v'.getD ((fld icntr I_BufStrt + fld icntr I_BufLen).toNat - 1) 0
        = (if (ceilDiv (min line.length 256) wordSize : Int)
              ≤ fld icntr I_Length - (fld icntr I_BufStrt + fld icntr I_BufLen + 1)
           then ((min line.length 256 : Nat) : Int)
           else (fld icntr I_Length - (fld icntr I_BufStrt + fld icntr I_BufLen + 1))
             * wordSize) ∧
      v'.getD ((fld icntr I_BufStrt + fld icntr I_BufLen).toNat - 1) 0
        ≤ (fld icntr I_Length - (fld icntr I_BufStrt + fld icntr I_BufLen + 1)) * wordSize ∧
      (256 < line.length →
        64 ≤ fld icntr I_Length - (fld icntr I_BufStrt + fld icntr I_BufLen + 1) →
        v'.getD ((fld icntr I_BufStrt + fld icntr I_BufLen).toNat - 1) 0 = 256) := by
  obtain ⟨v', hge, hlen', hh1, hh2, hblen, hlow⟩ := GEwrite_write icntr line mode hV hw
  have hws : wordSize = 4 := rfl
  set B := fld icntr I_BufStrt with hB
  set C := fld icntr I_BufLen with hC
  set L := fld icntr I_Length with hLd
  have key : (nBytesVal icntr line : Int)
      = if (ceilDiv (min line.length 256) wordSize : Int) ≤ L - (B + C + 1)
        then ((min line.length 256 : Nat) : Int) else (L - (B + C + 1)) * wordSize := by
    rw [nBytesVal, ← hB, ← hC, ← hLd]
    by_cases h1 : (INTS (min line.length 256) : Int) > L - (B + C + 1)
    · by_cases h2 : (ceilDiv (min line.length 256) wordSize : Int) ≤ L - (B + C + 1)
      · exfalso
        simp only [INTS, ceilDiv, hws] at h1 h2
        omega
      · rw [if_pos h1, if_neg h2]
        simp only [hws]
        push_cast
        omega
    · by_cases h2 : (ceilDiv (min line.length 256) wordSize : Int) ≤ L - (B + C + 1)
      · rw [if_neg h1, if_pos h2]
      · exfalso
        simp only [INTS, ceilDiv, hws] at h1 h2
        omega
  refine ⟨v', hge, ?_, ?_, ?_⟩
  · rw [hh1, key]
  · rw [hh1, key]
    split
    · rename_i h2
      simp only [ceilDiv, hws] at h2 ⊢
      omega
    · simp only [hws]
      omega
  · intro h256 h64
    have hm : min line.length 256 = 256 := by omega
    rw [hh1, key, hm]
    rw [if_pos (by rw [show ceilDiv 256 wordSize = 64 from by decide]; exact_mod_cast h64)]
    norm_num

/-- A 40-word control vector with buffer start 30 and nothing consumed:
`ints2write = 9` free words past the header. -/
def cntr40 : List Int :=
  (((List.replicate 40 0).set I_Length 40).set I_BufStrt 30).set I_BufLen 0

/-- Counterexample to C3 as stated: for `cntr40` the claim's remaining
capacity `totalLength - (bufferStart + bufferConsumed + 2)` is `8 > 0`, and a
100-byte line does not fit, so by the claim the stored length should be
`8 * 4 = 32` and "never exceed" `32`; the code stores `36`
(`ints2write = 9` words, an off-by-one against the claim's formula). -/
theorem GEwrite_stored_length_counterexample :
    0 < fld cntr40 I_Length - (fld cntr40 I_BufStrt + fld cntr40 I_BufLen + 2) ∧
      (GEwrite cntr40 (List.replicate 100 97) TOLOG).map (fun v => v.getD 29 0)
        = some 36 ∧
      ¬ ((36 : Int)
          ≤ (fld cntr40 I_Length - (fld cntr40 I_BufStrt + fld cntr40 I_BufLen + 2))
            * wordSize) := by
  refine ⟨by decide, by decide, by decide⟩

/-- Witness for `GEwrite_stored_length`: `cntr40` with a 100-byte line
(truncated store). -/
theorem GEwrite_stored_length_witness :
    ValidCntr cntr40 ∧
      0 < fld cntr40 I_Length - (fld cntr40 I_BufStrt + fld cntr40 I_BufLen + 1) ∧
      ∃ v', GEwrite cntr40 (List.replicate 100 97) TOLOG = some v' ∧
        v'.getD ((fld cntr40 I_BufStrt + fld cntr40 I_BufLen).toNat - 1) 0
          = (if (ceilDiv (min (List.replicate 100 97).length 256) wordSize : Int)
                ≤ fld cntr40 I_Length - (fld cntr40 I_BufStrt + fld cntr40 I_BufLen + 1)
             then ((min (List.replicate 100 97).length 256 : Nat) : Int)
             else (fld cntr40 I_Length - (fld cntr40 I_BufStrt + fld cntr40 I_BufLen + 1))
               * wordSize) ∧
        v'.getD ((fld cntr40 I_BufStrt + fld cntr40 I_BufLen).toNat - 1) 0
          ≤ (fld cntr40 I_Length - (fld cntr40 I_BufStrt + fld cntr40 I_BufLen + 1))
            * wordSize ∧
        (256 < (List.replicate 100 97).length →
          64 ≤ fld cntr40 I_Length - (fld cntr40 I_BufStrt + fld cntr40 I_BufLen + 1) →
          v'.getD ((fld cntr40 I_BufStrt + fld cntr40 I_BufLen).toNat - 1) 0 = 256) :=
  ⟨by decide, by decide,
    GEwrite_stored_length cntr40 (List.replicate 100 97) TOLOG (by decide) (by decide)⟩

/-! ## Claim C9: all stores of `GEwrite` stay inside the vector -/

/-- Helper: on a vector that honestly reports its length, has a 1-based
buffer start and nonnegative consumed count, and contains the 28-word fixed
header, every store of `GEwrite` is in bounds and the call succeeds. -/
theorem GEwrite_wf_some (icntr : List Int) (line : List Nat) (mode : Int)
    (hhdr : 28 ≤ icntr.length)
    (hL : fld icntr I_Length = (icntr.length : Int))
    (hBS : 1 ≤ fld icntr I_BufStrt) (hBC : 0 ≤ fld icntr I_BufLen) :
    ∃ v', GEwrite icntr line mode = some v' ∧ v'.length = icntr.length := by
  by_cases hfull : fld icntr I_Length - (fld icntr I_BufStrt + fld icntr I_BufLen + 1) ≤ 0
  · exact ⟨icntr, GEwrite_noop icntr line mode hfull, rfl⟩
  · push_neg at hfull
    have hws : wordSize = 4 := rfl
    set B := fld icntr I_BufStrt with hB
    set C := fld icntr I_BufLen with hC
    set L := fld icntr I_Length with hLd
    set nB : Nat := nBytesVal icntr line with hnB
    set nW : Nat := (nB + (wordSize - 1)) / wordSize with hnWd
    have hnW : (nW : Int) ≤ L - (B + C + 1) := by
      have hnBeq : nB = if (INTS (min line.length 256) : Int) > L - (B + C + 1) then
          (L - (B + C + 1)).toNat * wordSize else min line.length 256 := by
        rw [hnB, nBytesVal]
      rw [hnWd, hnBeq]
      split
      · simp only [hws]
        omega
      · rename_i h
        push_neg at h
        simp only [INTS, hws] at h
        simp only [hws]
        omega
    have hcond : 2 ≤ B + C + 1 ∧ B + C + 1 + (nW : Int) ≤ (icntr.length : Int) ∧
        I_BufLen < icntr.length := by
      refine ⟨by omega, by omega, ?_⟩
      simp only [I_BufLen]
      omega
    refine ⟨((writePayload icntr (B + C + 1).toNat line nB).set ((B + C + 1).toNat - 2)
        (nB : Int) |>.set ((B + C + 1).toNat - 1) mode).set I_BufLen
        (fld ((writePayload icntr (B + C + 1).toNat line nB).set ((B + C + 1).toNat - 2)
          (nB : Int) |>.set ((B + C + 1).toNat - 1) mode) I_BufLen + 2 + (INTS nB : Int)),
      ?_, ?_⟩
    · simp only [GEwrite, ← hB, ← hC, ← hLd, ← hnB, ← hnWd]
      rw [if_neg (by omega), if_pos hcond]
    · simp only [List.length_set, writePayload_length]

/-- C9: for every control vector whose length field equals the vector's
actual word length, whose Fortran-based buffer start is at least 1 and whose
consumed count is nonnegative — a control vector by definition also contains
its 28-word fixed header — every store `GEwrite` performs (the two header
words at C indices `bufferStart+bufferConsumed-1` and
`bufferStart+bufferConsumed`, every payload byte, and the consumed-counter
update) lands inside the vector's index range: the out-of-bounds (`none`)
branch of the bounds-checked embedding is unreachable, and the vector keeps
its length. -/
theorem GEwrite_stores_in_bounds (icntr : List Int) (line : List Nat) (mode : Int)
    (hhdr : 28 ≤ icntr.length)
    (hL : fld icntr I_Length = (icntr.length : Int))
    (hBS : 1 ≤ fld icntr I_BufStrt) (hBC : 0 ≤ fld icntr I_BufLen) :
    ∃ v', GEwrite icntr line mode = some v' ∧ v'.length = icntr.length :=
  GEwrite_wf_some icntr line mode hhdr hL hBS hBC

/-- Witness for `GEwrite_stores_in_bounds`: the scenario vector `cntr64` with
a 10-byte line. -/
theorem GEwrite_stores_in_bounds_witness :
    28 ≤ cntr64.length ∧ fld cntr64 I_Length = (cntr64.length : Int) ∧
      1 ≤ fld cntr64 I_BufStrt ∧ 0 ≤ fld cntr64 I_BufLen ∧
      ∃ v', GEwrite cntr64 (List.replicate 10 97) TOSTAT = some v' ∧
        v'.length = cntr64.length :=
  ⟨by decide, by decide, by decide, by decide,
    GEwrite_stores_in_bounds cntr64 (List.replicate 10 97) TOSTAT
      (by decide) (by decide) (by decide) (by decide)⟩

/-! ## Claim C5: the string extractor -/

theorem strncpyGo_length (src : Nat → Nat) :
    ∀ (k : Nat) (buf : List Nat) (i : Nat) (pad : Bool),
      (strncpyGo buf src i k pad).length = buf.length := by
  intro k
  induction k with
  | zero => intro buf i pad; rfl
  | succ k ih =>
    intro buf i pad
    simp only [strncpyGo]
    rw [ih]
    simp

/-- If no copied source byte is zero, `strncpy` never pads and every element
of the result is nonzero provided every element of the original buffer is. -/
theorem strncpyGo_mem_ne_zero (src : Nat → Nat) :
    ∀ (k : Nat) (buf : List Nat) (i : Nat),
      (∀ t, i ≤ t → t < i + k → src t ≠ 0) → (∀ b ∈ buf, b ≠ 0) →
      ∀ b ∈ strncpyGo buf src i k false, b ≠ 0 := by
  intro k
  induction k with
  | zero => intro buf i _ hbuf; exact hbuf
  | succ k ih =>
    intro buf i hsrc hbuf
    have hs0 : src i ≠ 0 := hsrc i le_rfl (by omega)
    have hstep : strncpyGo buf src i (k + 1) false
        = strncpyGo (buf.set i (src i)) src (i + 1) k false := by
      simp [strncpyGo, hs0]
    rw [hstep]
    refine ih (buf.set i (src i)) (i + 1)
      (fun t ht1 ht2 => hsrc t (by omega) (by omega)) ?_
    intro b hb
    rcases List.mem_or_eq_of_mem_set hb with h | h
    · exact hbuf b h
    · rw [h]; exact hs0

/-- C5: for every declared character count `C` (the string-slot length field
`icntr[11]`) and every output buffer of capacity `B = buf.length`, `GEname`
returns `min(C, B)` when `C ≥ 0` and the failure sentinel `-1` (with the
buffer untouched) when `C < 0`; provided the host-deposited string and the
buffer's prior contents contain no null bytes, a null byte is present in the
output buffer iff the returned count is strictly less than `B`. -/
theorem GEname_spec (C : Int) (src : Nat → Nat) (buf : List Nat)
    (hsrc : ∀ i, i < buf.length → src i ≠ 0) (hbuf : ∀ b ∈ buf, b ≠ 0) :
    (C < 0 → GEname C src buf = (-1, buf)) ∧
      (0 ≤ C →
        (GEname C src buf).1 = min C (buf.length : Int) ∧
        ((0 ∈ (GEname C src buf).2) ↔ (GEname C src buf).1 < (buf.length : Int))) := by
  have hnall : ∀ n, n ≤ buf.length → ∀ b ∈ strncpyL buf src n, b ≠ 0 := by
    intro n hn
    exact strncpyGo_mem_ne_zero src n buf 0 (fun t ht1 ht2 => hsrc t (by omega)) hbuf
  constructor
  · intro hC
    simp only [GEname]
    rw [if_pos hC]
  · intro hC
    simp only [GEname]
    rw [if_neg (by omega)]
    by_cases hbig : C > (buf.length : Int)
    · rw [if_pos hbig, if_neg (by omega)]
      dsimp only
      refine ⟨by omega, ?_, ?_⟩
      · intro h0
        exact absurd rfl (hnall buf.length le_rfl 0 h0)
      · intro hlt
        exfalso
        omega
    · rw [if_neg hbig]
      by_cases hlt : ((C.toNat : Nat) : Int) < (buf.length : Int)
      · rw [if_pos hlt]
        dsimp only
        have hCn : C.toNat < buf.length := by omega
        have hlen1 : (strncpyL buf src C.toNat).length = buf.length :=
          strncpyGo_length src C.toNat buf 0 false
        refine ⟨by omega, ?_, ?_⟩
        · intro _
          omega
        · intro _
          have hidx2 : C.toNat < ((strncpyL buf src C.toNat).set C.toNat 0).length := by
            simp only [List.length_set, hlen1]
            omega
          refine List.mem_iff_getElem.mpr ⟨C.toNat, hidx2, ?_⟩
          exact List.getElem_set_self hidx2
      · rw [if_neg hlt]
        dsimp only
        refine ⟨by omega, ?_, ?_⟩
        · intro h0
          exact absurd rfl (hnall C.toNat (by omega) 0 h0)
        · intro h
          exfalso
          omega

/-- Witness for `GEname_spec`: count 3 into a buffer of capacity 5 copies 3
bytes, appends a terminator, and returns 3; count `-2` fails with `-1`. -/
theorem GEname_spec_witness :
    (∀ i, i < ([7, 7, 7, 7, 7] : List Nat).length → (fun _ => 65) i ≠ 0) ∧
      (∀ b ∈ ([7, 7, 7, 7, 7] : List Nat), b ≠ 0) ∧
      ((-2 : Int) < 0 → GEname (-2) (fun _ => 65) [7, 7, 7, 7, 7] = (-1, [7, 7, 7, 7, 7])) ∧
      ((0 : Int) ≤ 3 →
        (GEname 3 (fun _ => 65) [7, 7, 7, 7, 7]).1
            = min 3 (([7, 7, 7, 7, 7] : List Nat).length : Int) ∧
          ((0 ∈ (GEname 3 (fun _ => 65) [7, 7, 7, 7, 7]).2) ↔
            (GEname 3 (fun _ => 65) [7, 7, 7, 7, 7]).1
              < (([7, 7, 7, 7, 7] : List Nat).length : Int))) :=
  ⟨by decide, by decide,
    fun h => (GEname_spec (-2) (fun _ => 65) [7, 7, 7, 7, 7] (by decide) (by decide)).1 h,
    (GEname_spec 3 (fun _ => 65) [7, 7, 7, 7, 7] (by decide) (by decide)).2⟩

/-! ## `gefunc`: helper for successful diagnostic writes -/

/-- On a well-formed control vector, a `GEwriteD` call always succeeds,
appending to the debug sink exactly when the debug flag is set. -/
theorem GEwriteD_some (icntr : List Int) (line : List Nat) (mode : Int)
    (dbg : List (Int × List Nat)) (hV : ValidCntr icntr) :
    ∃ v', GEwriteD icntr line mode dbg
        = some (v', if fld icntr I_Debug ≠ 0 then dbg ++ [(mode, line)] else dbg) ∧
      v'.length = icntr.length := by
  obtain ⟨hL, hBS, hBC, hlen⟩ := hV
  obtain ⟨v', hgw, hlen'⟩ := GEwrite_wf_some icntr line mode hlen hL (by omega) hBC
  exact ⟨v', by simp [GEwriteD, hgw], hlen'⟩

/-! ## Claim C7: function-only evaluation leaves the derivative array alone -/

/-- C7: in Evaluate mode with equation index 1, the "compute function" flag
set and the "compute derivatives" flag unset, only the scalar function-value
output among the numerical outputs is modified — it becomes
`sin(x[0]) - x[2]` — while the derivative output array retains its incoming
value entrywise, and the call succeeds with status 0. -/
theorem gefunc_eval_func_only (sinF cosF : ℚ → ℚ) (icntr : List Int) (x : List ℚ)
    (f : ℚ) (d : List ℚ) (dbg : List (Int × List Nat))
    (hV : ValidCntr icntr) (hmode : fld icntr I_Mode = DOEVAL)
    (heq : fld icntr I_Eqno = 1) (hfn : fld icntr I_Dofunc ≠ 0)
    (hdrv : fld icntr I_Dodrv = 0) :
    ∃ res : CallResult, gefunc sinF cosF icntr x f d dbg = some res ∧
      res.rc = 0 ∧ res.d = d ∧ res.fval = sinF (x.getD 0 0) - x.getD 2 0 := by
  obtain ⟨v', hlog, hlen'⟩ := GEwriteD_some icntr msgEvalMode TOLOG dbg hV
  refine ⟨⟨0, v', sinF (x.getD 0 0) - x.getD 2 0, d,
      if fld icntr I_Debug ≠ 0 then dbg ++ [(TOLOG, msgEvalMode)] else dbg⟩,
    ?_, rfl, rfl, rfl⟩
  simp only [gefunc, hmode, GElog, DOINIT, DOTERM, DOEVAL, DOCONSTDERIV, heq, hdrv]
  rw [hlog]
  simp [hfn]

/-- The scenario vector for C7: Evaluate mode, equation 1, compute-function
set, compute-derivatives unset. -/
def cntrEval1 : List Int :=
  (((((List.replicate 64 0).set I_Length 64).set I_BufStrt 30).set I_Mode 3).set
    I_Eqno 1).set I_Dofunc 1

/-- Witness for `gefunc_eval_func_only`: with `x = [1, 2, 3, 4]` and
`sinF = id`, the function value becomes `1 - 3 = -2` and `d` is returned
verbatim. -/
theorem gefunc_eval_func_only_witness :
    ValidCntr cntrEval1 ∧ fld cntrEval1 I_Mode = DOEVAL ∧ fld cntrEval1 I_Eqno = 1 ∧
      fld cntrEval1 I_Dofunc ≠ 0 ∧ fld cntrEval1 I_Dodrv = 0 ∧
      ∃ res : CallResult,
        gefunc id id cntrEval1 [1, 2, 3, 4] 0 [5, 6, 7, 8] [] = some res ∧
        res.rc = 0 ∧ res.d = [5, 6, 7, 8] ∧
        res.fval = id (([1, 2, 3, 4] : List ℚ).getD 0 0) - ([1, 2, 3, 4] : List ℚ).getD 2 0 :=
  ⟨by decide, by decide, by decide, by decide, by decide,
    gefunc_eval_func_only id id cntrEval1 [1, 2, 3, 4] 0 [5, 6, 7, 8] []
      (by decide) (by decide) (by decide) (by decide) (by decide)⟩

/-! ## Claim C8: evaluation is deterministic / independent of call history -/

/-- C8: `gefunc` in Evaluate mode is purely functional in its call arguments:
two calls with the same control-vector contents (mode, equation index,
flags), the same variable-value array and the same incoming outputs return
the same status, control vector, function value and derivative outputs
regardless of the process-wide debug-sink state — the only mutable state
surviving between calls — so the results do not depend on what calls
happened before. -/
theorem gefunc_eval_deterministic (sinF cosF : ℚ → ℚ) (icntr : List Int) (x : List ℚ)
    (f : ℚ) (d : List ℚ) (dbg1 dbg2 : List (Int × List Nat))
    (hmode : fld icntr I_Mode = DOEVAL) :
    (gefunc sinF cosF icntr x f d dbg1).map (fun r => (r.rc, r.icntr, r.fval, r.d))
      = (gefunc sinF cosF icntr x f d dbg2).map (fun r => (r.rc, r.icntr, r.fval, r.d)) := by
  simp only [gefunc, hmode, GElog, GEstat, GEwriteD]
  rw [if_neg (show ¬(DOEVAL = DOINIT) by decide), if_neg (show ¬(DOEVAL = DOTERM) by decide),
    if_pos trivial, if_neg (show ¬(DOEVAL = DOINIT) by decide),
    if_neg (show ¬(DOEVAL = DOTERM) by decide), if_pos trivial]
  cases hw : GEwrite icntr msgEvalMode TOLOG with
  | none => rfl
  | some v =>
    simp only [Option.map_some', Option.some_bind]
    by_cases hidx : 1 ≤ fld icntr I_Eqno ∧ fld icntr I_Eqno ≤ 2
    · simp only [if_pos hidx]
      by_cases hdrv : fld icntr I_Dodrv ≠ 0
      · simp only [if_pos hdrv]
        by_cases hfi : fld icntr I_Eqno = 1
        · simp only [if_pos hfi]
          cases setQ d 0 (cosF (x.getD 0 0)) with
          | none => rfl
          | some d1 =>
            simp only [Option.some_bind]
            cases setQ d1 2 (-1) with
            | none => rfl
            | some d2 => rfl
        · simp only [if_neg hfi]
          cases setQ d 1 (-(sinF (x.getD 1 0))) with
          | none => rfl
          | some d1 =>
            simp only [Option.some_bind]
            cases setQ d1 3 (-1) with
            | none => rfl
            | some d2 => rfl
      · simp only [if_neg hdrv]
        rfl
    · simp only [if_neg hidx]
      cases hw2 : GEwrite v msgBadIndex TOSTAT with
      | none => rfl
      | some v2 => rfl

/-- Witness for `gefunc_eval_deterministic`: the scenario vector `cntrEval1`
with two different debug-sink histories. -/
theorem gefunc_eval_deterministic_witness :
    fld cntrEval1 I_Mode = DOEVAL ∧
      (gefunc id id cntrEval1 [1, 2, 3, 4] 0 [5, 6, 7, 8] []).map
          (fun r => (r.rc, r.icntr, r.fval, r.d))
        = (gefunc id id cntrEval1 [1, 2, 3, 4] 0 [5, 6, 7, 8]
            [(1, [97])]).map (fun r => (r.rc, r.icntr, r.fval, r.d)) :=
  ⟨by decide,
    gefunc_eval_deterministic id id cntrEval1 [1, 2, 3, 4] 0 [5, 6, 7, 8] [] [(1, [97])]
      (by decide)⟩

/-! ## Claim C10: ConstantDerivative mode does not validate the index -/

/-- C10 (amended): in ConstantDerivative mode `gefunc` performs no validation
of the equation index: it writes `-1.0` to the derivative array at position
`index + 1` and returns status 0 whenever that position exists, which for
the 4-element derivative array means exactly `-1 ≤ index ≤ 2` — not only
the valid equation indices 1 and 2 — while for any other index the
unchecked write falls outside the array (`none`, undefined behavior in C),
unlike Evaluate mode, which rejects out-of-range indices. -/
theorem gefunc_constderiv_unchecked (sinF cosF : ℚ → ℚ) (icntr : List Int) (x : List ℚ)
    (f : ℚ) (d : List ℚ) (dbg : List (Int × List Nat))
    (hV : ValidCntr icntr) (hmode : fld icntr I_Mode = DOCONSTDERIV)
    (hd4 : d.length = 4) :
    (-1 ≤ fld icntr I_Eqno ∧ fld icntr I_Eqno ≤ 2 →
      ∃ res : CallResult, gefunc sinF cosF icntr x f d dbg = some res ∧ res.rc = 0 ∧
        res.d = d.set (fld icntr I_Eqno + 1).toNat (-1) ∧ res.fval = f) ∧
    ((fld icntr I_Eqno < -1 ∨ 2 < fld icntr I_Eqno) →
      gefunc sinF cosF icntr x f d dbg = none) := by
  obtain ⟨v', hlog, hlen'⟩ := GEwriteD_some icntr msgCDeriv TOLOG dbg hV
  have hred : gefunc sinF cosF icntr x f d dbg
      = (setQ d (fld icntr I_Eqno + 1) (-1)).map
          (fun d1 => ⟨0, v', f, d1,
            if fld icntr I_Debug ≠ 0 then dbg ++ [(TOLOG, msgCDeriv)] else dbg⟩) := by
    simp only [gefunc, hmode, GElog]
    rw [if_neg (show ¬(DOCONSTDERIV = DOINIT) by decide),
      if_neg (show ¬(DOCONSTDERIV = DOTERM) by decide),
      if_neg (show ¬(DOCONSTDERIV = DOEVAL) by decide), if_pos trivial]
    rw [hlog]
    rfl
  constructor
  · intro hin
    have hc : 0 ≤ fld icntr I_Eqno + 1 ∧ (fld icntr I_Eqno + 1).toNat < d.length := by
      omega
    rw [hred, setQ, if_pos hc]
    simp only [Option.map_some']
    exact ⟨_, rfl, rfl, rfl, rfl⟩
  · intro hout
    have hc : ¬(0 ≤ fld icntr I_Eqno + 1 ∧ (fld icntr I_Eqno + 1).toNat < d.length) := by
      omega
    rw [hred, setQ, if_neg hc]
    rfl

/-- The ConstantDerivative-mode scenario vector with equation index 0 (an
index Evaluate mode would reject). -/
def cntrCD0 : List Int :=
  ((((List.replicate 64 0).set I_Length 64).set I_BufStrt 30).set I_Mode 4).set I_Eqno 0

/-- Counterexample to C10 as stated: with equation index 0 — which is
neither 1 nor 2 — the ConstantDerivative write `d[0+1]` still lands inside
the 4-element derivative array: the call succeeds with status 0 and sets
`d[1] = -1`, refuting "stays inside only if the index is 1 or 2". -/
theorem gefunc_constderiv_counterexample :
    (gefunc id id cntrCD0 [] 0 [9, 9, 9, 9] []).map (fun r => (r.rc, r.d))
        = some (0, [9, -1, 9, 9]) ∧
      fld cntrCD0 I_Eqno ≠ 1 ∧ fld cntrCD0 I_Eqno ≠ 2 := by
  refine ⟨by decide, by decide, by decide⟩

/-- The ConstantDerivative-mode vector with equation index 3 (out of range
for the write). -/
def cntrCD3 : List Int :=
  ((((List.replicate 64 0).set I_Length 64).set I_BufStrt 30).set I_Mode 4).set I_Eqno 3

/-- Witness for `gefunc_constderiv_unchecked`: index 0 writes `d[1] = -1`
and returns 0; index 3 reaches the out-of-bounds branch. -/
theorem gefunc_constderiv_unchecked_witness :
    (ValidCntr cntrCD0 ∧ fld cntrCD0 I_Mode = DOCONSTDERIV ∧
      ([9, 9, 9, 9] : List ℚ).length = 4 ∧
      (-1 ≤ fld cntrCD0 I_Eqno ∧ fld cntrCD0 I_Eqno ≤ 2) ∧
      ∃ res : CallResult, gefunc id id cntrCD0 [] 0 [9, 9, 9, 9] [] = some res ∧
        res.rc = 0 ∧
        res.d = ([9, 9, 9, 9] : List ℚ).set (fld cntrCD0 I_Eqno + 1).toNat (-1) ∧
        res.fval = 0) ∧
    (ValidCntr cntrCD3 ∧ fld cntrCD3 I_Mode = DOCONSTDERIV ∧
      (fld cntrCD3 I_Eqno < -1 ∨ 2 < fld cntrCD3 I_Eqno) ∧
      gefunc id id cntrCD3 [] 0 [9, 9, 9, 9] [] = none) :=
  ⟨⟨by decide, by decide, by decide, by decide,
      (gefunc_constderiv_unchecked id id cntrCD0 [] 0 [9, 9, 9, 9] []
        (by decide) (by decide) (by decide)).1 (by decide)⟩,
    ⟨by decide, by decide, by decide,
      (gefunc_constderiv_unchecked id id cntrCD3 [] 0 [9, 9, 9, 9] []
        (by decide) (by decide) (by decide)).2 (by decide)⟩⟩

/-! ## Claim C6: Init-mode size validation -/

/-- Helper: a successful `GEwrite` of a line that fits entirely (positive
capacity at least `INTS (line length)`). -/
theorem GEwrite_msg (icntr : List Int) (line : List Nat) (mode : Int)
    (hV : ValidCntr icntr) (hl1 : 1 ≤ line.length) (hl2 : line.length ≤ 256)
    (hfit : (INTS line.length : Int)
      ≤ fld icntr I_Length - (fld icntr I_BufStrt + fld icntr I_BufLen + 1)) :
    ∃ v', GEwrite icntr line mode = some v' ∧
      v'.length = icntr.length ∧
      v'.getD ((fld icntr I_BufStrt + fld icntr I_BufLen).toNat - 1) 0
        = (line.length : Int) ∧
      v'.getD ((fld icntr I_BufStrt + fld icntr I_BufLen).toNat) 0 = mode ∧
      v'.getD I_BufLen 0 = fld icntr I_BufLen + 2 + (INTS line.length : Int) ∧
      (∀ i : Nat, i ≠ I_BufLen →
        i < (fld icntr I_BufStrt + fld icntr I_BufLen).toNat - 1 →
        v'.getD i 0 = icntr.getD i 0) := by
  have hone : 1 ≤ (INTS line.length : Int) := by
    simp only [INTS, wordSize]
    omega
  have hw : 0 < fld icntr I_Length - (fld icntr I_BufStrt + fld icntr I_BufLen + 1) := by
    omega
  have hnb : nBytesVal icntr line = line.length := by
    rw [nBytesVal, show min line.length 256 = line.length from by omega, if_neg (by omega)]
  obtain ⟨v', h1, h2, h3, h4, h5, h6⟩ := GEwrite_write icntr line mode hV hw
  rw [hnb] at h3 h5
  exact ⟨v', h1, h2, h3, h4, h5, h6⟩

/-- The diagnostic line emitted by the Init branch of `gefunc`, following
the source's else-if chain (also on a full match, where the module reports
the correct size). -/
def initMsg (icntr : List Int) : List Nat :=
  if fld icntr I_Neq ≠ 2 then msgNeq
  else if fld icntr I_Nvar ≠ 4 then msgNvar
  else if fld icntr I_Nz ≠ 4 then msgNz
  else msgSizeOk

/-- C6 (amended): on a well-formed control vector in Init mode with a fresh
buffer (`bufferConsumed = 0`, as the protocol guarantees at every `gefunc`
call) and room for the diagnostic (12 free buffer words suffice for all four
messages), `gefunc` returns 0 iff the host-declared equation, variable and
nonzero-derivative counts equal the module's expectations `(2, 4, 4)`; any
single mismatch yields status 2 and exactly one diagnostic record — the
buffer holds one record of the branch's message, tagged for the log — and
on a full match the constant-derivative capability flag `icntr[I_ConstDeriv]`
is set to 1.  (Without buffer capacity the mismatch diagnostic is silently
dropped, see `gefunc_init_counterexample`.) -/
theorem gefunc_init_spec (sinF cosF : ℚ → ℚ) (icntr : List Int) (x : List ℚ)
    (f : ℚ) (d : List ℚ) (dbg : List (Int × List Nat))
    (hV : ValidCntr icntr) (hmode : fld icntr I_Mode = DOINIT)
    (hbc : fld icntr I_BufLen = 0)
    (hcap : fld icntr I_BufStrt + 12 ≤ fld icntr I_Length) :
    ∃ res : CallResult, gefunc sinF cosF icntr x f d dbg = some res ∧
      (res.rc = 0 ↔
        fld icntr I_Neq = 2 ∧ fld icntr I_Nvar = 4 ∧ fld icntr I_Nz = 4) ∧
      (¬(fld icntr I_Neq = 2 ∧ fld icntr I_Nvar = 4 ∧ fld icntr I_Nz = 4) →
        res.rc = 2) ∧
      res.icntr.getD I_BufLen 0 = 2 + (INTS (initMsg icntr).length : Int) ∧
      res.icntr.getD ((fld icntr I_BufStrt).toNat - 1) 0
        = ((initMsg icntr).length : Int) ∧
      res.icntr.getD ((fld icntr I_BufStrt).toNat) 0 = TOLOG ∧
      (fld icntr I_Neq = 2 ∧ fld icntr I_Nvar = 4 ∧ fld icntr I_Nz = 4 →
        res.icntr.getD I_ConstDeriv 0 = 1) := by
  obtain ⟨hL, hBS, hBC, hlen⟩ := hV
  have hidx : (fld icntr I_BufStrt + fld icntr I_BufLen).toNat
      = (fld icntr I_BufStrt).toNat := by omega
  have hb29 : 29 ≤ (fld icntr I_BufStrt).toNat := by omega
  simp only [gefunc, hmode, GElog, GEwriteD]
  rw [if_pos trivial]
  by_cases h1 : fld icntr I_Neq ≠ 2
  · -- equation-count mismatch
    have hmsg : initMsg icntr = msgNeq := by rw [initMsg, if_pos h1]
    obtain ⟨v', hgw, hlen', hh1, hh2, hbl, _⟩ :=
      GEwrite_msg icntr msgNeq TOLOG ⟨hL, hBS, hBC, hlen⟩ (by decide) (by decide)
        (by rw [show msgNeq.length = 36 from by decide,
              show (INTS 36 : Int) = 9 from by decide]; omega)
    rw [if_pos h1, hgw]
    simp only [Option.map_some']
    refine ⟨_, rfl, by simp [h1], fun _ => rfl, ?_, ?_, ?_, fun hm => absurd hm.1 h1⟩
    · rw [hmsg, hbl, hbc]
      ring
    · rw [hmsg, ← hidx]
      exact hh1
    · rw [← hidx]
      exact hh2
  · push_neg at h1
    rw [if_neg (not_not_intro h1)]
    by_cases h2 : fld icntr I_Nvar ≠ 4
    · -- variable-count mismatch
      have hmsg : initMsg icntr = msgNvar := by
        rw [initMsg, if_neg (not_not_intro h1), if_pos h2]
      obtain ⟨v', hgw, hlen', hh1, hh2, hbl, _⟩ :=
        GEwrite_msg icntr msgNvar TOLOG ⟨hL, hBS, hBC, hlen⟩ (by decide) (by decide)
          (by rw [show msgNvar.length = 36 from by decide,
                show (INTS 36 : Int) = 9 from by decide]; omega)
      rw [if_pos h2, hgw]
      simp only [Option.map_some']
      refine ⟨_, rfl, by simp [h1, h2], fun _ => rfl, ?_, ?_, ?_,
        fun hm => absurd hm.2.1 h2⟩
      · rw [hmsg, hbl, hbc]
        ring
      · rw [hmsg, ← hidx]
        exact hh1
      · rw [← hidx]
        exact hh2
    · push_neg at h2
      rw [if_neg (not_not_intro h2)]
      by_cases h3 : fld icntr I_Nz ≠ 4
      · -- nonzero-count mismatch
        have hmsg : initMsg icntr = msgNz := by
          rw [initMsg, if_neg (not_not_intro h1), if_neg (not_not_intro h2), if_pos h3]
        obtain ⟨v', hgw, hlen', hh1, hh2, hbl, _⟩ :=
          GEwrite_msg icntr msgNz TOLOG ⟨hL, hBS, hBC, hlen⟩ (by decide) (by decide)
            (by rw [show msgNz.length = 41 from by decide,
                  show (INTS 41 : Int) = 11 from by decide]; omega)
        rw [if_pos h3, hgw]
        simp only [Option.map_some']
        refine ⟨_, rfl, by simp [h1, h2, h3], fun _ => rfl, ?_, ?_, ?_,
          fun hm => absurd hm.2.2 h3⟩
        · rw [hmsg, hbl, hbc]
          ring
        · rw [hmsg, ← hidx]
          exact hh1
        · rw [← hidx]
          exact hh2
      · push_neg at h3
        rw [if_neg (not_not_intro h3)]
        -- full match: correct size, set the constant-derivative flag
        have hmsg : initMsg icntr = msgSizeOk := by
          rw [initMsg, if_neg (not_not_intro h1), if_neg (not_not_intro h2),
            if_neg (not_not_intro h3)]
        obtain ⟨v', hgw, hlen', hh1, hh2, hbl, _⟩ :=
          GEwrite_msg icntr msgSizeOk TOLOG ⟨hL, hBS, hBC, hlen⟩ (by decide) (by decide)
            (by rw [show msgSizeOk.length = 31 from by decide,
                  show (INTS 31 : Int) = 8 from by decide]; omega)
        rw [hgw]
        simp only [Option.map_some', Option.some_bind]
        have hcd : I_ConstDeriv < v'.length := by
          rw [hlen']
          simp only [I_ConstDeriv]
          omega
        rw [if_pos hcd]
        refine ⟨_, rfl, by simp [h1, h2, h3], fun hm => absurd ⟨h1, h2, h3⟩ hm,
          ?_, ?_, ?_, fun _ => ?_⟩
        · rw [getD_set_ne _ _ _ _ (by simp only [I_ConstDeriv, I_BufLen]; omega),
            hmsg, hbl, hbc]
          ring
        · rw [getD_set_ne _ _ _ _ (by simp only [I_ConstDeriv]; omega), hmsg, ← hidx]
          exact hh1
        · rw [getD_set_ne _ _ _ _ (by simp only [I_ConstDeriv]; omega), ← hidx]
          exact hh2
        · exact getD_set_self _ _ _ hcd

/-- An Init-mode control vector with a full buffer (31 words, buffer start
30, so zero free words) and a mismatched equation count (3 instead of 2). -/
def cntrInitFull : List Int :=
  ((((List.replicate 31 0).set I_Length 31).set I_BufStrt 30).set I_Mode 1).set I_Neq 3

/-- Counterexample to C6 as stated: on `cntrInitFull` the equation count
mismatches (3 ≠ 2) and `gefunc` returns status 2, but the buffer-consumed
counter stays 0 — the diagnostic record was silently dropped for lack of
buffer capacity, so the mismatch yields *zero*, not exactly one, diagnostic
records. -/
theorem gefunc_init_counterexample :
    fld cntrInitFull I_Mode = DOINIT ∧ fld cntrInitFull I_Neq ≠ 2 ∧
      ValidCntr cntrInitFull ∧
      (gefunc id id cntrInitFull [] 0 [] []).map
          (fun r => (r.rc, r.icntr.getD I_BufLen 0)) = some (2, 0) := by
  refine ⟨by decide, by decide, by decide, by decide⟩

/-- An Init-mode control vector matching the module's expected sizes
`(2, 4, 4)`. -/
def cntrInitOk : List Int :=
  ((((((List.replicate 64 0).set I_Length 64).set I_BufStrt 30).set I_Mode 1).set
    I_Neq 2).set I_Nvar 4).set I_Nz 4

/-- Witness for `gefunc_init_spec`: the matching scenario (two equations,
four variables, four nonzeros). -/
theorem gefunc_init_spec_witness :
    ValidCntr cntrInitOk ∧ fld cntrInitOk I_Mode = DOINIT ∧
      fld cntrInitOk I_BufLen = 0 ∧
      fld cntrInitOk I_BufStrt + 12 ≤ fld cntrInitOk I_Length ∧
      ∃ res : CallResult, gefunc id id cntrInitOk [] 0 [] [] = some res ∧
        (res.rc = 0 ↔
          fld cntrInitOk I_Neq = 2 ∧ fld cntrInitOk I_Nvar = 4 ∧ fld cntrInitOk I_Nz = 4) ∧
        (¬(fld cntrInitOk I_Neq = 2 ∧ fld cntrInitOk I_Nvar = 4 ∧
            fld cntrInitOk I_Nz = 4) → res.rc = 2) ∧
        res.icntr.getD I_BufLen 0 = 2 + (INTS (initMsg cntrInitOk).length : Int) ∧
        res.icntr.getD ((fld cntrInitOk I_BufStrt).toNat - 1) 0
          = ((initMsg cntrInitOk).length : Int) ∧
        res.icntr.getD ((fld cntrInitOk I_BufStrt).toNat) 0 = TOLOG ∧
        (fld cntrInitOk I_Neq = 2 ∧ fld cntrInitOk I_Nvar = 4 ∧ fld cntrInitOk I_Nz = 4 →
          res.icntr.getD I_ConstDeriv 0 = 1) :=
  ⟨by decide, by decide, by decide, by decide,
    gefunc_init_spec id id cntrInitOk [] 0 [] []
      (by decide) (by decide) (by decide) (by decide)⟩

/-! ## Claim C4: Evaluate mode with an out-of-range equation index -/

/-- C4 (amended): on a well-formed control vector in Evaluate mode with a
fresh buffer and room for both records (16 free buffer words), an equation
index outside `[1, 2]` makes `gefunc` return the nonzero status 2 and append
the invalid-index diagnostic to the *status* destination; the log
destination receives only the generic 19-byte "Evaluation mode" banner
(written on entry to the branch), not a record about the invalid index, and
these two records are all the buffer holds — the original claim's "appended
to both destinations" does not hold, see
`gefunc_eval_bad_index_counterexample`.  The numerical outputs `f` and `d`
are untouched. -/
theorem gefunc_eval_bad_index (sinF cosF : ℚ → ℚ) (icntr : List Int) (x : List ℚ)
    (f : ℚ) (d : List ℚ) (dbg : List (Int × List Nat))
    (hV : ValidCntr icntr) (hmode : fld icntr I_Mode = DOEVAL)
    (hbc : fld icntr I_BufLen = 0)
    (hcap : fld icntr I_BufStrt + 16 ≤ fld icntr I_Length)
    (hbad : ¬(1 ≤ fld icntr I_Eqno ∧ fld icntr I_Eqno ≤ 2)) :
    ∃ res : CallResult, gefunc sinF cosF icntr x f d dbg = some res ∧
      res.rc = 2 ∧
      res.icntr.getD ((fld icntr I_BufStrt).toNat - 1) 0 = (msgEvalMode.length : Int) ∧
      res.icntr.getD ((fld icntr I_BufStrt).toNat) 0 = TOLOG ∧
      res.icntr.getD ((fld icntr I_BufStrt).toNat + 6) 0 = (msgBadIndex.length : Int) ∧
      res.icntr.getD ((fld icntr I_BufStrt).toNat + 7) 0 = TOSTAT ∧
      res.icntr.getD I_BufLen 0
        = 2 + (INTS msgEvalMode.length : Int) + (2 + (INTS msgBadIndex.length : Int)) ∧
      res.fval = f ∧ res.d = d := by
  obtain ⟨hL, hBS, hBC, hlen⟩ := hV
  set b := (fld icntr I_BufStrt).toNat with hbdef
  have hb29 : 29 ≤ b := by omega
  have hidx : (fld icntr I_BufStrt + fld icntr I_BufLen).toNat = b := by omega
  -- first record: the mode banner, to the log
  obtain ⟨v1, hgw1, hlen1, hh11, hh21, hbl1, hlow1⟩ :=
    GEwrite_msg icntr msgEvalMode TOLOG ⟨hL, hBS, hBC, hlen⟩ (by decide) (by decide)
      (by rw [show msgEvalMode.length = 19 from by decide,
            show (INTS 19 : Int) = 5 from by decide]; omega)
  rw [hidx] at hh11 hh21
  have hv1_25 : fld v1 I_BufStrt = fld icntr I_BufStrt :=
    hlow1 I_BufStrt (by decide) (by rw [hidx]; simp only [I_BufStrt]; omega)
  have hv1_0 : fld v1 I_Length = (v1.length : Int) := by
    have h0 : v1.getD I_Length 0 = icntr.getD I_Length 0 :=
      hlow1 I_Length (by decide) (by rw [hidx]; simp only [I_Length]; omega)
    rw [fld, h0, hlen1]
    exact hL
  have hv1_26 : fld v1 I_BufLen = 7 := by
    rw [fld, hbl1, hbc, show (INTS msgEvalMode.length : Int) = 5 from by decide]
    ring
  -- second record: the invalid-index diagnostic, to the status file
  obtain ⟨v2, hgw2, hlen2, hh12, hh22, hbl2, hlow2⟩ :=
    GEwrite_msg v1 msgBadIndex TOSTAT
      ⟨hv1_0, by rw [hv1_25]; exact hBS, by rw [hv1_26]; norm_num,
        by rw [hlen1]; exact hlen⟩
      (by decide) (by decide)
      (by rw [hv1_25, hv1_26, hv1_0, hlen1,
            show (INTS msgBadIndex.length : Int) = 8 from by decide]; omega)
  have hidx2 : (fld v1 I_BufStrt + fld v1 I_BufLen).toNat = b + 7 := by
    rw [hv1_25, hv1_26]
    omega
  rw [hidx2] at hh12 hh22
  have hidx2' : b + 7 - 1 = b + 6 := by omega
  rw [hidx2'] at hh12
  -- reduce the dispatcher
  simp only [gefunc, hmode, GElog, GEstat, GEwriteD]
  rw [if_neg (show ¬(DOEVAL = DOINIT) by decide), if_neg (show ¬(DOEVAL = DOTERM) by decide),
    if_pos trivial, hgw1]
  simp only [Option.map_some', Option.some_bind]
  rw [if_neg hbad, hgw2]
  simp only [Option.map_some']
  refine ⟨_, rfl, rfl, ?_, ?_, ?_, ?_, ?_, rfl, rfl⟩
  · rw [hlow2 (b - 1) (by simp only [I_BufLen]; omega) (by rw [hidx2]; omega)]
    exact hh11
  · rw [hlow2 b (by simp only [I_BufLen]; omega) (by rw [hidx2]; omega)]
    exact hh21
  · exact hh12
  · exact hh22
  · rw [hbl2, hv1_26]
    decide

/-- An Evaluate-mode control vector with equation index 5, outside the valid
range `[1, 2]`. -/
def cntrEvalBad : List Int :=
  ((((List.replicate 64 0).set I_Length 64).set I_BufStrt 30).set I_Mode 3).set I_Eqno 5

/-- Counterexample to C4 as stated: with the out-of-range index 5 the buffer
ends up holding exactly two records (17 words consumed): a 19-byte record
tagged for the log — the generic "Evaluation mode" banner, not a message
about the invalid index — and the 32-byte invalid-index diagnostic tagged
for the status file only.  No invalid-index record is appended to the log
destination, refuting "appended to both". -/
theorem gefunc_eval_bad_index_counterexample :
    (gefunc id id cntrEvalBad [] 0 [] []).map
        (fun r => (r.rc, r.icntr.getD 29 0, r.icntr.getD 30 0, r.icntr.getD 36 0,
          r.icntr.getD 37 0, r.icntr.getD I_BufLen 0))
      = some (2, (msgEvalMode.length : Int), TOLOG, (msgBadIndex.length : Int), TOSTAT, 17) ∧
      msgEvalMode.length = 19 ∧ msgBadIndex.length = 32 ∧
      (msgEvalMode.length : Int) ≠ (msgBadIndex.length : Int) := by
  refine ⟨by decide, by decide, by decide, by decide⟩

/-- Witness for `gefunc_eval_bad_index`: the concrete vector `cntrEvalBad`. -/
theorem gefunc_eval_bad_index_witness :
    ValidCntr cntrEvalBad ∧ fld cntrEvalBad I_Mode = DOEVAL ∧
      fld cntrEvalBad I_BufLen = 0 ∧
      fld cntrEvalBad I_BufStrt + 16 ≤ fld cntrEvalBad I_Length ∧
      ¬(1 ≤ fld cntrEvalBad I_Eqno ∧ fld cntrEvalBad I_Eqno ≤ 2) ∧
      ∃ res : CallResult, gefunc id id cntrEvalBad [] 0 [] [] = some res ∧
        res.rc = 2 ∧
        res.icntr.getD ((fld cntrEvalBad I_BufStrt).toNat - 1) 0
          = (msgEvalMode.length : Int) ∧
        res.icntr.getD ((fld cntrEvalBad I_BufStrt).toNat) 0 = TOLOG ∧
        res.icntr.getD ((fld cntrEvalBad I_BufStrt).toNat + 6) 0
          = (msgBadIndex.length : Int) ∧
        res.icntr.getD ((fld cntrEvalBad I_BufStrt).toNat + 7) 0 = TOSTAT ∧
        res.icntr.getD I_BufLen 0
          = 2 + (INTS msgEvalMode.length : Int) + (2 + (INTS msgBadIndex.length : Int)) ∧
        res.fval = 0 ∧ res.d = [] :=
  ⟨by decide, by decide, by decide, by decide, by decide,
    gefunc_eval_bad_index id id cntrEvalBad [] 0 [] []
      (by decide) (by decide) (by decide) (by decide) (by decide)⟩
